import Mathlib

set_option maxRecDepth 16384

/-!
Shallow embedding of the uxn core emulator (crate `core-emulator`):
`common.rs` (Item and its operators), `stack.rs` (circular stack and the
typed operand accessor), `core/mem.rs` (main-memory access), and
`core/exec.rs` (instruction decode and dispatch).

Machine bytes and shorts are represented as `Nat` bit patterns kept below
2^8 and 2^16; every store normalises with `% 256` / `% 65536`, matching the
`u8` / `u16` buffers of the source.  The `Item` payloads in the source are
the signed types `i8` / `i16` (the operand accessor reads `as i8`, memory
reads build `Item::Byte(.. as i8)`, pushes cast back `as u8`), so wherever
the source performs a signedness-sensitive operation on a payload (derived
`Ord` comparison, `/`, `as u16` extension, arithmetic shift) the embedding
reinterprets the bit pattern through `toI8` / `toI16`.
-/

namespace Uxn

/-- Which of the two stacks an instruction targets (`common.rs`). -/
inductive StackMode where
  | Working
  | Return
deriving DecidableEq, Repr

/-- Operand width selected by the short flag (`common.rs`). -/
inductive ItemSize where
  | Byte
  | Short
deriving DecidableEq, Repr

/-- Operand access discipline selected by the keep flag (`stack.rs`). -/
inductive AccessMode where
  | Pop
  | Keep
deriving DecidableEq, Repr

/-- A tagged stack value; payloads are machine bit patterns (`common.rs`,
`Item::Byte(i8)` / `Item::Short(i16)` stored here as their unsigned bit
patterns below 2^8 / 2^16). -/
inductive Item where
  | Byte (bits : Nat)
  | Short (bits : Nat)
deriving DecidableEq, Repr

/-- Result of executing one instruction (`core/exec.rs`). -/
inductive ExecutionResult where
  | Continue
  | Break
deriving DecidableEq, Repr

/-- Reinterpret a byte bit pattern as Rust `i8` (two's complement). -/
def toI8 (bits : Nat) : Int :=
  if bits % 256 < 128 then ((bits % 256 : Nat) : Int)
  else ((bits % 256 : Nat) : Int) - 256

/-- Reinterpret a short bit pattern as Rust `i16` (two's complement). -/
def toI16 (bits : Nat) : Int :=
  if bits % 65536 < 32768 then ((bits % 65536 : Nat) : Int)
  else ((bits % 65536 : Nat) : Int) - 65536

/-- Bit pattern (as `u8`) of an integer, i.e. the value mod 2^8. -/
def ofI8 (i : Int) : Nat := (i % 256).toNat

/-- Bit pattern (as `u16`) of an integer, i.e. the value mod 2^16. -/
def ofI16 (i : Int) : Nat := (i % 65536).toNat

/-- Rust `i8 as u16`: sign-extend a byte pattern to a short pattern. -/
def signExtend8to16 (bits : Nat) : Nat := ofI16 (toI8 bits)

/-- `Item::increment` (`common.rs`): wrapping `+ 1` at the item's width. -/
def Item.increment : Item → Item
  | .Byte n => .Byte ((n + 1) % 256)
  | .Short n => .Short ((n + 1) % 65536)

/-- `Item::shift` (`common.rs`): on the signed payload, `unbounded_shr`
(arithmetic right shift, modelled as flooring division by 2^right) followed
by `unbounded_shl` (low bits of multiplication by 2^left). -/
def Item.shift : Item → Nat → Nat → Item
  | .Byte n, left, right => .Byte (ofI8 (Int.fdiv (toI8 n) (2 ^ right) * 2 ^ left))
  | .Short n, left, right => .Short (ofI16 (Int.fdiv (toI16 n) (2 ^ right) * 2 ^ left))

/-- The `all_sizes_binop!` macro of `common.rs`: apply a width-specific
operation to two items of the same variant; mismatched variants hit the
`unreachable!("mismatched item types")` arm, modelled as `none`. -/
def all_sizes_binop (f8 f16 : Nat → Nat → Nat) : Item → Item → Option Item
  | .Byte a, .Byte b => some (.Byte (f8 a b))
  | .Short a, .Short b => some (.Short (f16 a b))
  | _, _ => none

/-- `Add for Item`: `overflowing_add`, i.e. wrapping addition of patterns. -/
def item_add : Item → Item → Option Item :=
  all_sizes_binop (fun a b => (a + b) % 256) (fun a b => (a + b) % 65536)

/-- `Sub for Item`: `overflowing_sub`, i.e. wrapping subtraction of patterns. -/
def item_sub : Item → Item → Option Item :=
  all_sizes_binop (fun a b => ofI8 ((a : Int) - (b : Int)))
    (fun a b => ofI16 ((a : Int) - (b : Int)))

/-- `Mul for Item`: `overflowing_mul`, whose low bits agree with wrapping
multiplication of the patterns. -/
def item_mul : Item → Item → Option Item :=
  all_sizes_binop (fun a b => (a * b) % 256) (fun a b => (a * b) % 65536)

/-- `Div for Item`: zero when the divisor is zero, otherwise
`overflowing_div` on the signed `i8` / `i16` payloads (truncating signed
division; the lone overflow case MIN / -1 wraps, which the final
`% 2^w` realises). -/
def item_div : Item → Item → Option Item :=
  all_sizes_binop
    (fun a b => if b % 256 = 0 then 0 else ofI8 (Int.tdiv (toI8 a) (toI8 b)))
    (fun a b => if b % 65536 = 0 then 0 else ofI16 (Int.tdiv (toI16 a) (toI16 b)))

/-- `BitAnd for Item`. -/
def item_and : Item → Item → Option Item :=
  all_sizes_binop (fun a b => Nat.land (a % 256) (b % 256))
    (fun a b => Nat.land (a % 65536) (b % 65536))

/-- `BitOr for Item`. -/
def item_or : Item → Item → Option Item :=
  all_sizes_binop (fun a b => Nat.lor (a % 256) (b % 256))
    (fun a b => Nat.lor (a % 65536) (b % 65536))

/-- `BitXor for Item`. -/
def item_xor : Item → Item → Option Item :=
  all_sizes_binop (fun a b => Nat.xor (a % 256) (b % 256))
    (fun a b => Nat.xor (a % 65536) (b % 65536))

/-- The `<` of the derived `PartialOrd`/`Ord` on `Item` (`common.rs`):
variant tag first, then the payload compared as the SIGNED `i8` / `i16`
it is declared to hold. -/
def item_lt (x y : Item) : Bool :=
  match x, y with
  | .Byte a, .Byte b => toI8 a < toI8 b
  | .Byte _, .Short _ => true
  | .Short _, .Byte _ => false
  | .Short a, .Short b => toI16 a < toI16 b

/-- The derived `PartialEq` on `Item`, on normalised patterns. -/
def item_eq (x y : Item) : Bool :=
  match x, y with
  | .Byte a, .Byte b => a % 256 = b % 256
  | .Short a, .Short b => a % 65536 = b % 65536
  | _, _ => false

/-- `uxn`'s circular stack (`stack.rs`): 256 data bytes and a `u8` head
pointer.  The data is a function from index (reduced mod 256 at every
access) to the stored byte pattern. -/
structure Stack where
  pointer : Nat
  data : Nat → Nat

/-- `Stack::new`. -/
def Stack.new : Stack := ⟨0, fun _ => 0⟩

/-- `Stack::push_byte`: store at the head, advance the head mod 256. -/
def Stack.push_byte (s : Stack) (b : Nat) : Stack :=
  { pointer := (s.pointer + 1) % 256
    data := fun i => if i = s.pointer % 256 then b % 256 else s.data i }

/-- `Stack::push_short`: push the big-endian high byte, then the low byte. -/
def Stack.push_short (s : Stack) (v : Nat) : Stack :=
  (s.push_byte (v % 65536 / 256)).push_byte (v % 256)

/-- `Stack::push_item`. -/
def Stack.push_item (s : Stack) : Item → Stack
  | .Byte b => s.push_byte b
  | .Short v => s.push_short v

/-- Fold a list of byte pushes (for stating keep-mode frame effects). -/
def Stack.push_bytes (s : Stack) : List Nat → Stack
  | [] => s
  | b :: rest => (s.push_byte b).push_bytes rest

/-- The scratch-pointer decrement of the operand accessor
(`StackOperandAccessor::this_byte` / `this_short`, via `overflowing_sub`):
move the pointer back `k` positions mod 256. -/
def back (q k : Nat) : Nat := (q + (256 - k % 256)) % 256

/-- Number of bytes a read of the given width consumes. -/
def size_bytes : ItemSize → Nat
  | .Byte => 1
  | .Short => 2

/-- Read the byte under the (already decremented) scratch pointer
(`this_byte` returns `data[pointer - 1]`). -/
def Stack.read_byte_at (s : Stack) (p : Nat) : Nat := s.data (p % 256) % 256

/-- Read the big-endian short at the (already decremented) scratch pointer
(`this_short` reads `data[pointer - 2]`, `data[pointer - 1]`). -/
def Stack.read_short_at (s : Stack) (p : Nat) : Nat :=
  s.read_byte_at p * 256 + s.read_byte_at ((p + 1) % 256)

/-- `this_item`: width chosen by the instruction's size flag. -/
def Stack.read_item_at (s : Stack) (size : ItemSize) (p : Nat) : Item :=
  match size with
  | .Byte => .Byte (s.read_byte_at p)
  | .Short => .Short (s.read_short_at p)

/-- `StackOperandAccessor::done`: commit the scratch pointer in `Pop` mode,
leave the stack untouched in `Keep` mode. -/
def done (s : Stack) (mode : AccessMode) (q : Nat) : Stack :=
  match mode with
  | .Pop => { s with pointer := q }
  | .Keep => s

/-- One operand read of the accessor protocol, for quantifying over read
sequences: `byte()` / `short()` consume a fixed width, `item()` consumes
the instruction's item size. -/
inductive OperandRead where
  | byte
  | short
  | item
deriving DecidableEq, Repr

/-- Bytes consumed by one read, resolving `item` by the size flag. -/
def read_bytesize (size : ItemSize) : OperandRead → Nat
  | .byte => 1
  | .short => 2
  | .item => size_bytes size

/-- The scratch pointer after a sequence of operand reads, each stepping
the pointer back by the read's width mod 256. -/
def run_reads (size : ItemSize) (q : Nat) : List OperandRead → Nat
  | [] => q
  | r :: rest => run_reads size (back q (read_bytesize size r)) rest

/-- Total byte size of a sequence of operand reads. -/
def total_bytes (size : ItemSize) : List OperandRead → Nat
  | [] => 0
  | r :: rest => read_bytesize size r + total_bytes size rest

/-- Main-memory byte read (`core/mem.rs`); addressing is mod 2^16 and the
stored bytes are patterns below 2^8. -/
def read_byte_mem (m : Nat → Nat) (addr : Nat) : Nat := m (addr % 65536) % 256

/-- Main-memory byte write. -/
def write_byte_mem (m : Nat → Nat) (addr b : Nat) : Nat → Nat :=
  fun i => if i = addr % 65536 then b % 256 else m i

/-- Big-endian short read with `overflowing_add(1)` wrap on the second
address (`Memory::read_short` / the `Short` arm of `Core::read_memory`). -/
def read_short_mem (m : Nat → Nat) (addr : Nat) : Nat :=
  read_byte_mem m addr * 256 + read_byte_mem m ((addr + 1) % 65536)

/-- `Core::read_memory` (`core/mem.rs`). -/
def read_memory (m : Nat → Nat) (addr : Nat) : ItemSize → Item
  | .Byte => .Byte (read_byte_mem m addr)
  | .Short => .Short (read_short_mem m addr)

/-- `Core::write_memory` (`core/mem.rs`): a short stores its high byte at
`addr` and its low byte at `addr + 1` mod 2^16. -/
def write_memory (m : Nat → Nat) (addr : Nat) : Item → (Nat → Nat)
  | .Byte b => write_byte_mem m addr b
  | .Short v => write_byte_mem (write_byte_mem m addr (v % 65536 / 256)) ((addr + 1) % 65536) (v % 256)

/-- Device-page byte read of the stub `EmptyDevice` (`device/empty.rs`),
a plain 256-byte memory page addressed by a `u8` port. -/
def dev_read_byte (d : Nat → Nat) (port : Nat) : Nat := d (port % 256) % 256

/-- Device `read_memory` (trait default of `common.rs` over the page):
shorts are big-endian with `u8` address wrap. -/
def dev_read (d : Nat → Nat) (port : Nat) : ItemSize → Item
  | .Byte => .Byte (dev_read_byte d port)
  | .Short => .Short (dev_read_byte d port * 256 + dev_read_byte d ((port + 1) % 256))

/-- Device `write_memory` over the page. -/
def dev_write (d : Nat → Nat) (port : Nat) : Item → (Nat → Nat)
  | .Byte b => fun i => if i = port % 256 then b % 256 else d i
  | .Short v =>
      fun i =>
        if i = (port + 1) % 256 then v % 256
        else if i = port % 256 then v % 65536 / 256
        else d i

/-- The CPU core (`core/mod.rs`): program counter, 64 KiB memory, the two
stacks and the device page (modelled as the stub `EmptyDevice` page, the
only device the core crate provides; no claim depends on device-specific
side effects). -/
structure Core where
  program_counter : Nat
  memory : Nat → Nat
  working_stack : Stack
  return_stack : Stack
  device : Nat → Nat

/-- `ROM_BASE` (`core/mod.rs`). -/
def ROM_BASE : Nat := 0x0100

/-- `Core::new` (`core/mod.rs`): reset state. -/
def Core.new : Core :=
  { program_counter := ROM_BASE
    memory := fun _ => 0
    working_stack := Stack.new
    return_stack := Stack.new
    device := fun _ => 0 }

/-- `Core::clear_memory` (`core/mem.rs`): zero every byte. -/
def clear_memory (_m : Nat → Nat) : Nat → Nat := fun _ => 0

/-- The copy loop of `Core::load_rom`: write the bytes consecutively
starting at `base` (`memory[ROM_BASE + i] = rom[i]`). -/
def store_rom (m : Nat → Nat) (base : Nat) : List Nat → (Nat → Nat)
  | [] => m
  | b :: rest => store_rom (fun i => if i = base then b % 256 else m i) (base + 1) rest

/-- `Core::load_rom` (`core/mem.rs`): clear memory, then copy the ROM in
starting at `ROM_BASE`. -/
def load_rom (m : Nat → Nat) (rom : List Nat) : Nat → Nat :=
  store_rom (clear_memory m) ROM_BASE rom

/-- `Core::target_stack`. -/
def target_stack (c : Core) : StackMode → Stack
  | .Working => c.working_stack
  | .Return => c.return_stack

/-- Write back the stack selected by the mode flag. -/
def with_target (c : Core) : StackMode → Stack → Core
  | .Working, s => { c with working_stack := s }
  | .Return, s => { c with return_stack := s }

/-- `Core::other_stack`. -/
def other_stack (c : Core) : StackMode → Stack
  | .Working => c.return_stack
  | .Return => c.working_stack

/-- Write back the stack opposite to the mode flag. -/
def with_other (c : Core) : StackMode → Stack → Core
  | .Working, s => { c with return_stack := s }
  | .Return, s => { c with working_stack := s }

/-- `Core::jump_to_dynamic_address` (`core/exec.rs`): a `Byte` destination
is relative (the `i8` payload sign-extended by `rel as u16` and added to PC
with 16-bit wrap), a `Short` destination is absolute. -/
def jump_to_dynamic_address (pc : Nat) : Item → Nat
  | .Byte rel => (pc + signExtend8to16 rel) % 65536
  | .Short a => a % 65536

/-- `Core::execute_one_instruction` (`core/exec.rs`).  Decodes the keep /
return / short flags and the 5-bit opcode, then dispatches.  The arms the
source marks `unreachable!` — the opcode fall-through and the mismatched
`Item` variants inside binary operators — are modelled as `none`. -/
def execute_one_instruction (c : Core) (ins0 : Nat) : Option (ExecutionResult × Core) :=
  let ins := ins0 % 256
  let stack := if ins.testBit 6 then StackMode.Return else StackMode.Working
  let item_size := if ins.testBit 5 then ItemSize.Short else ItemSize.Byte
  let mode := if ins.testBit 7 then AccessMode.Keep else AccessMode.Pop
  let s0 := target_stack c stack
  let q0 := s0.pointer
  match ins % 32 with
  -- BRK / JCI / JMI / JSI / LIT / LIT2, multiplexed on the mode tuple
  | 0 =>
    match stack, item_size, mode with
    | .Working, .Byte, .Pop => some (.Break, c)
    | .Working, .Short, .Pop =>
        let p1 := back q0 1
        let cond := s0.read_byte_at p1
        let c1 := with_target c .Working (done s0 .Pop p1)
        let rel := read_short_mem c1.memory c1.program_counter
        let pc2 := (c1.program_counter + 2) % 65536
        some (.Continue, { c1 with program_counter := if cond ≠ 0 then (pc2 + rel) % 65536 else pc2 })
    | .Return, .Byte, .Pop =>
        let rel := read_short_mem c.memory c.program_counter
        let pc2 := (c.program_counter + 2) % 65536
        some (.Continue, { c with program_counter := (pc2 + rel) % 65536 })
    | .Return, .Short, .Pop =>
        let c1 := { c with return_stack := c.return_stack.push_short ((c.program_counter + 2) % 65536) }
        let rel := read_short_mem c1.memory c1.program_counter
        let pc2 := (c1.program_counter + 2) % 65536
        some (.Continue, { c1 with program_counter := (pc2 + rel) % 65536 })
    | st, .Byte, .Keep =>
        let b := read_byte_mem c.memory c.program_counter
        let c1 := { c with program_counter := (c.program_counter + 1) % 65536 }
        some (.Continue, with_target c1 st ((target_stack c1 st).push_byte b))
    | st, .Short, .Keep =>
        let v := read_short_mem c.memory c.program_counter
        let c1 := { c with program_counter := (c.program_counter + 2) % 65536 }
        some (.Continue, with_target c1 st ((target_stack c1 st).push_short v))
  -- INC
  | 1 =>
    let p1 := back q0 (size_bytes item_size)
    let item := s0.read_item_at item_size p1
    let s1 := done s0 mode p1
    some (.Continue, with_target c stack (s1.push_item item.increment))
  -- POP
  | 2 =>
    let p1 := back q0 (size_bytes item_size)
    some (.Continue, with_target c stack (done s0 mode p1))
  -- NIP
  | 3 =>
    let p1 := back q0 (size_bytes item_size)
    let p2 := back p1 (size_bytes item_size)
    let item := s0.read_item_at item_size p2
    let s1 := done s0 mode p2
    some (.Continue, with_target c stack (s1.push_item item))
  -- SWP
  | 4 =>
    let p1 := back q0 (size_bytes item_size)
    let first := s0.read_item_at item_size p1
    let p2 := back p1 (size_bytes item_size)
    let second := s0.read_item_at item_size p2
    let s1 := done s0 mode p2
    some (.Continue, with_target c stack ((s1.push_item first).push_item second))
  -- ROT
  | 5 =>
    let p1 := back q0 (size_bytes item_size)
    let r1 := s0.read_item_at item_size p1
    let p2 := back p1 (size_bytes item_size)
    let r2 := s0.read_item_at item_size p2
    let p3 := back p2 (size_bytes item_size)
    let r3 := s0.read_item_at item_size p3
    let s1 := done s0 mode p3
    some (.Continue, with_target c stack (((s1.push_item r2).push_item r3).push_item r1))
  -- DUP
  | 6 =>
    let p1 := back q0 (size_bytes item_size)
    let item := s0.read_item_at item_size p1
    let s1 := done s0 mode p1
    some (.Continue, with_target c stack ((s1.push_item item).push_item item))
  -- OVR
  | 7 =>
    let p1 := back q0 (size_bytes item_size)
    let b := s0.read_item_at item_size p1
    let p2 := back p1 (size_bytes item_size)
    let a := s0.read_item_at item_size p2
    let s1 := done s0 mode p2
    some (.Continue, with_target c stack (((s1.push_item a).push_item b).push_item a))
  -- EQU
  | 8 =>
    let p1 := back q0 (size_bytes item_size)
    let a := s0.read_item_at item_size p1
    let p2 := back p1 (size_bytes item_size)
    let b := s0.read_item_at item_size p2
    let s1 := done s0 mode p2
    some (.Continue, with_target c stack (s1.push_byte (if item_eq a b then 1 else 0)))
  -- NEQ
  | 9 =>
    let p1 := back q0 (size_bytes item_size)
    let a := s0.read_item_at item_size p1
    let p2 := back p1 (size_bytes item_size)
    let b := s0.read_item_at item_size p2
    let s1 := done s0 mode p2
    some (.Continue, with_target c stack (s1.push_byte (if item_eq a b then 0 else 1)))
  -- GTH: push 1 iff second-read > first-read under the derived (signed) order
  | 10 =>
    let p1 := back q0 (size_bytes item_size)
    let a := s0.read_item_at item_size p1
    let p2 := back p1 (size_bytes item_size)
    let b := s0.read_item_at item_size p2
    let s1 := done s0 mode p2
    some (.Continue, with_target c stack (s1.push_byte (if item_lt a b then 1 else 0)))
  -- LTH
  | 11 =>
    let p1 := back q0 (size_bytes item_size)
    let a := s0.read_item_at item_size p1
    let p2 := back p1 (size_bytes item_size)
    let b := s0.read_item_at item_size p2
    let s1 := done s0 mode p2
    some (.Continue, with_target c stack (s1.push_byte (if item_lt b a then 1 else 0)))
  -- JMP
  | 12 =>
    let p1 := back q0 (size_bytes item_size)
    let dest := s0.read_item_at item_size p1
    let c1 := with_target c stack (done s0 mode p1)
    some (.Continue, { c1 with program_counter := jump_to_dynamic_address c1.program_counter dest })
  -- JCN
  | 13 =>
    let p1 := back q0 (size_bytes item_size)
    let dest := s0.read_item_at item_size p1
    let p2 := back p1 1
    let cond := s0.read_byte_at p2
    let c1 := with_target c stack (done s0 mode p2)
    some (.Continue, { c1 with program_counter :=
      if cond ≠ 0 then jump_to_dynamic_address c1.program_counter dest else c1.program_counter })
  -- JSR
  | 14 =>
    let p1 := back q0 (size_bytes item_size)
    let dest := s0.read_item_at item_size p1
    let c1 := with_target c stack (done s0 mode p1)
    let c2 := { c1 with return_stack := c1.return_stack.push_short c1.program_counter }
    some (.Continue, { c2 with program_counter := jump_to_dynamic_address c2.program_counter dest })
  -- STH
  | 15 =>
    let p1 := back q0 (size_bytes item_size)
    let item := s0.read_item_at item_size p1
    let c1 := with_target c stack (done s0 mode p1)
    some (.Continue, with_other c1 stack ((other_stack c1 stack).push_item item))
  -- LDZ: the `i8` operand is extended by `addr as u16`, which SIGN-extends
  | 16 =>
    let p1 := back q0 1
    let addr := s0.read_byte_at p1
    let s1 := done s0 mode p1
    let item := read_memory c.memory (signExtend8to16 addr) item_size
    some (.Continue, with_target c stack (s1.push_item item))
  -- STZ
  | 17 =>
    let p1 := back q0 1
    let addr := s0.read_byte_at p1
    let p2 := back p1 (size_bytes item_size)
    let item := s0.read_item_at item_size p2
    let c1 := with_target c stack (done s0 mode p2)
    some (.Continue, { c1 with memory := write_memory c1.memory (signExtend8to16 addr) item })
  -- LDR
  | 18 =>
    let p1 := back q0 1
    let addr := s0.read_byte_at p1
    let s1 := done s0 mode p1
    let abs_addr := ofI16 (((c.program_counter % 65536 : Nat) : Int) + toI8 addr)
    let item := read_memory c.memory abs_addr item_size
    some (.Continue, with_target c stack (s1.push_item item))
  -- STR
  | 19 =>
    let p1 := back q0 1
    let addr := s0.read_byte_at p1
    let p2 := back p1 (size_bytes item_size)
    let item := s0.read_item_at item_size p2
    let c1 := with_target c stack (done s0 mode p2)
    let abs_addr := ofI16 (((c1.program_counter % 65536 : Nat) : Int) + toI8 addr)
    some (.Continue, { c1 with memory := write_memory c1.memory abs_addr item })
  -- LDA
  | 20 =>
    let p1 := back q0 2
    let addr := s0.read_short_at p1
    let s1 := done s0 mode p1
    let item := read_memory c.memory addr item_size
    some (.Continue, with_target c stack (s1.push_item item))
  -- STA
  | 21 =>
    let p1 := back q0 2
    let addr := s0.read_short_at p1
    let p2 := back p1 (size_bytes item_size)
    let item := s0.read_item_at item_size p2
    let c1 := with_target c stack (done s0 mode p2)
    some (.Continue, { c1 with memory := write_memory c1.memory addr item })
  -- DEI
  | 22 =>
    let p1 := back q0 1
    let addr := s0.read_byte_at p1
    let s1 := done s0 mode p1
    let item := dev_read c.device addr item_size
    some (.Continue, with_target c stack (s1.push_item item))
  -- DEO
  | 23 =>
    let p1 := back q0 1
    let addr := s0.read_byte_at p1
    let p2 := back p1 (size_bytes item_size)
    let item := s0.read_item_at item_size p2
    let c1 := with_target c stack (done s0 mode p2)
    some (.Continue, { c1 with device := dev_write c1.device addr item })
  -- ADD
  | 24 =>
    let p1 := back q0 (size_bytes item_size)
    let b := s0.read_item_at item_size p1
    let p2 := back p1 (size_bytes item_size)
    let a := s0.read_item_at item_size p2
    let s1 := done s0 mode p2
    (item_add a b).map fun r => (.Continue, with_target c stack (s1.push_item r))
  -- SUB
  | 25 =>
    let p1 := back q0 (size_bytes item_size)
    let b := s0.read_item_at item_size p1
    let p2 := back p1 (size_bytes item_size)
    let a := s0.read_item_at item_size p2
    let s1 := done s0 mode p2
    (item_sub a b).map fun r => (.Continue, with_target c stack (s1.push_item r))
  -- MUL
  | 26 =>
    let p1 := back q0 (size_bytes item_size)
    let b := s0.read_item_at item_size p1
    let p2 := back p1 (size_bytes item_size)
    let a := s0.read_item_at item_size p2
    let s1 := done s0 mode p2
    (item_mul a b).map fun r => (.Continue, with_target c stack (s1.push_item r))
  -- DIV
  | 27 =>
    let p1 := back q0 (size_bytes item_size)
    let b := s0.read_item_at item_size p1
    let p2 := back p1 (size_bytes item_size)
    let a := s0.read_item_at item_size p2
    let s1 := done s0 mode p2
    (item_div a b).map fun r => (.Continue, with_target c stack (s1.push_item r))
  -- AND
  | 28 =>
    let p1 := back q0 (size_bytes item_size)
    let b := s0.read_item_at item_size p1
    let p2 := back p1 (size_bytes item_size)
    let a := s0.read_item_at item_size p2
    let s1 := done s0 mode p2
    (item_and a b).map fun r => (.Continue, with_target c stack (s1.push_item r))
  -- ORA
  | 29 =>
    let p1 := back q0 (size_bytes item_size)
    let b := s0.read_item_at item_size p1
    let p2 := back p1 (size_bytes item_size)
    let a := s0.read_item_at item_size p2
    let s1 := done s0 mode p2
    (item_or a b).map fun r => (.Continue, with_target c stack (s1.push_item r))
  -- EOR
  | 30 =>
    let p1 := back q0 (size_bytes item_size)
    let b := s0.read_item_at item_size p1
    let p2 := back p1 (size_bytes item_size)
    let a := s0.read_item_at item_size p2
    let s1 := done s0 mode p2
    (item_xor a b).map fun r => (.Continue, with_target c stack (s1.push_item r))
  -- SFT
  | 31 =>
    let p1 := back q0 1
    let sh := s0.read_byte_at p1
    let p2 := back p1 (size_bytes item_size)
    let a := s0.read_item_at item_size p2
    let s1 := done s0 mode p2
    let item := a.shift (sh / 16) (sh % 16)
    some (.Continue, with_target c stack (s1.push_item item))
  | _ => none

/-- Assemble an instruction byte from its three mode flags and 5-bit
opcode (`ins = keep·0x80 | return·0x40 | short·0x20 | opcode`). -/
def instruction_byte (keep ret short : Bool) (opcode : Nat) : Nat :=
  (if keep then 128 else 0) + (if ret then 64 else 0) + (if short then 32 else 0) + opcode % 32

/-- The stack selected by the return flag (`use_return_stack` decode). -/
def decoded_stack_flag (r : Bool) : StackMode :=
  if r then StackMode.Return else StackMode.Working

/-- The operand width selected by the short flag (`use_short` decode). -/
def decoded_size_flag (z : Bool) : ItemSize :=
  if z then ItemSize.Short else ItemSize.Byte

/-- `s'` arises from `s` by a (possibly empty) sequence of `push_byte`
operations: the frame effect keep-mode instructions have on their target
stack. -/
inductive PushExt (s : Stack) : Stack → Prop where
  | refl : PushExt s s
  | push (b : Nat) {t : Stack} : PushExt s t → PushExt s (t.push_byte b)

end Uxn

namespace Uxn

/-- C5: writing `Short s` at any address `a` (including `a = 0xFFFF`) and
reading a short back at `a` returns `s` (mod 2^16); the high byte lands at
`a` and the low byte at `(a+1) mod 2^16`, so a short spanning 0xFFFF wraps
its low byte to address 0x0000. -/
theorem C5_short_roundtrip (m : Nat → Nat) (a s : Nat) :
    read_memory (write_memory m a (Item.Short s)) a ItemSize.Short = Item.Short (s % 65536)
    ∧ write_memory m a (Item.Short s) (a % 65536) = s % 65536 / 256
    ∧ write_memory m a (Item.Short s) ((a + 1) % 65536) = s % 256 := by
  refine ⟨?_, ?_, ?_⟩
  · simp only [read_memory, read_short_mem, read_byte_mem, write_memory, write_byte_mem,
      Item.Short.injEq]
    split_ifs <;> omega
  · simp only [write_memory, write_byte_mem]
    split_ifs <;> omega
  · simp only [write_memory, write_byte_mem]
    split_ifs <;> omega

/-- C4 evaluated at the failing input: with working stack holding `a = 0x80`
below `b = 0x01`, GTH must push 1 under the claimed unsigned comparison
(128 > 1), but the code compares the payloads as the signed `i8` they are
declared to be (`-128 > 1` is false) and pushes 0. -/
theorem C4_gth_signed_at_failing_input :
    (execute_one_instruction
        { Core.new with working_stack := (Stack.new.push_byte 0x80).push_byte 0x01 }
        0x0A).map (fun r => (r.2.working_stack.pointer, r.2.working_stack.data 0))
      = some (1, 0)
    ∧ (0x80 : Nat) > 0x01
    ∧ item_lt (Item.Byte 0x01) (Item.Byte 0x80) = false := by
  refine ⟨by decide, by decide, by decide⟩

/-- C7 evaluated at the failing input: DIV on bytes `a = 0xFE`, `b = 0x02`
pushes 0xFF (the signed quotient `-2 / 2 = -1`), not the unsigned quotient
`254 / 2 = 127 = 0x7F` the claim demands.  (The zero-divisor half of the
claim — `a / 0 = 0` without a trap — does hold.) -/
theorem C7_div_signed_at_failing_input :
    (execute_one_instruction
        { Core.new with working_stack := (Stack.new.push_byte 0xFE).push_byte 0x02 }
        0x1B).map (fun r => (r.2.working_stack.pointer, r.2.working_stack.data 0))
      = some (1, 0xFF)
    ∧ item_div (Item.Byte 0xFE) (Item.Byte 0x02) = some (Item.Byte 0xFF)
    ∧ (0xFE : Nat) / 0x02 = 0x7F
    ∧ item_div (Item.Byte 0xFE) (Item.Byte 0) = some (Item.Byte 0) := by
  refine ⟨by decide, by decide, by decide, by decide⟩

/-- C10 evaluated at the failing input: LDZ in short mode with zero-page
operand `z = 0xFF` reads addresses 0xFFFF and 0x0000 (the `i8` operand is
sign-extended by `addr as u16`), not 0x00FF and 0x0100 as the claim's
zero-extension reading demands. -/
theorem C10_ldz_sign_extension_at_failing_input :
    (execute_one_instruction
        { Core.new with
            memory := fun a =>
              if a = 0xFFFF then 0xAB else if a = 0 then 0xCD
              else if a = 0xFF then 0x11 else if a = 0x100 then 0x22 else 0
            working_stack := Stack.new.push_byte 0xFF }
        0x30).map (fun r => (r.2.working_stack.data 0, r.2.working_stack.data 1))
      = some (0xAB, 0xCD)
    ∧ signExtend8to16 0xFF = 0xFFFF := by
  refine ⟨by decide, by decide⟩

/-- C3 counterexample: the LIT instruction (0x80) has the keep flag set,
yet executing it on the reset core moves the working (target) stack's
pointer from 0 to 1 — keep-mode instructions still push their results. -/
theorem C3_counterexample :
    (0x80 : Nat).testBit 7 = true
    ∧ Core.new.working_stack.pointer = 0
    ∧ (execute_one_instruction Core.new 0x80).map (fun r => r.2.working_stack.pointer)
        = some 1 := by
  refine ⟨by decide, by decide, by decide⟩

/-- C1: executing an instruction whose low five bits are 0x00 selects
exactly one of six behaviors by the (stack, size, mode) flag tuple:
0x00 (Working, Byte, Pop) is BRK and halts, leaving the core unchanged;
0x20 (Working, Short, Pop) is JCI: pop one condition byte from the working
stack, read a big-endian u16 `rel` at PC, add 2 to PC, then add `rel` iff
the condition byte is non-zero; 0x40 (Return, Byte, Pop) is JMI: PC becomes
PC+2+rel; 0x60 (Return, Short, Pop) is JSI: push PC+2 onto the return
stack, then the JMI steps; 0x80/0xC0 (either stack, Byte, Keep) is LIT:
fetch the byte at PC, add 1 to PC, push it onto the target stack;
0xA0/0xE0 (either stack, Short, Keep) is LIT2: fetch the big-endian short
at PC, add 2 to PC, push it onto the target stack.  All PC arithmetic is
mod 2^16. -/
theorem C1_opcode0_dispatch (c : Core) :
    execute_one_instruction c 0x00 = some (ExecutionResult.Break, c)
    ∧ execute_one_instruction c 0x20 = some (ExecutionResult.Continue,
        { c with
            working_stack := { c.working_stack with pointer := back c.working_stack.pointer 1 }
            program_counter :=
              if c.working_stack.read_byte_at (back c.working_stack.pointer 1) ≠ 0 then
                ((c.program_counter + 2) % 65536 + read_short_mem c.memory c.program_counter) % 65536
              else (c.program_counter + 2) % 65536 })
    ∧ execute_one_instruction c 0x40 = some (ExecutionResult.Continue,
        { c with
            program_counter :=
              ((c.program_counter + 2) % 65536 + read_short_mem c.memory c.program_counter) % 65536 })
    ∧ execute_one_instruction c 0x60 = some (ExecutionResult.Continue,
        { c with
            return_stack := c.return_stack.push_short ((c.program_counter + 2) % 65536)
            program_counter :=
              ((c.program_counter + 2) % 65536 + read_short_mem c.memory c.program_counter) % 65536 })
    ∧ execute_one_instruction c 0x80 = some (ExecutionResult.Continue,
        { c with
            program_counter := (c.program_counter + 1) % 65536
            working_stack := c.working_stack.push_byte (read_byte_mem c.memory c.program_counter) })
    ∧ execute_one_instruction c 0xC0 = some (ExecutionResult.Continue,
        { c with
            program_counter := (c.program_counter + 1) % 65536
            return_stack := c.return_stack.push_byte (read_byte_mem c.memory c.program_counter) })
    ∧ execute_one_instruction c 0xA0 = some (ExecutionResult.Continue,
        { c with
            program_counter := (c.program_counter + 2) % 65536
            working_stack := c.working_stack.push_short (read_short_mem c.memory c.program_counter) })
    ∧ execute_one_instruction c 0xE0 = some (ExecutionResult.Continue,
        { c with
            program_counter := (c.program_counter + 2) % 65536
            return_stack := c.return_stack.push_short (read_short_mem c.memory c.program_counter) }) :=
  ⟨rfl, rfl, rfl, rfl, rfl, rfl, rfl, rfl⟩

/-- C2: `jump_to_dynamic_address` maps a `Byte` destination to
PC + sign-extended signed value of the byte, mod 2^16 (relative jump), and
a `Short` destination to the destination itself (absolute jump); and JMP
(opcode 0x0C), JCN (0x0D, when the popped condition byte is non-zero) and
JSR (0x0E) all set PC through it, in every keep/return/short mode
combination, on the top item of the target stack. -/
theorem C2_jump_semantics :
    (∀ pc rel, jump_to_dynamic_address pc (Item.Byte rel)
        = (((pc : Int) + toI8 rel) % 65536).toNat)
    ∧ (∀ pc a, jump_to_dynamic_address pc (Item.Short a) = a % 65536)
    ∧ (∀ (k r z : Bool) (c : Core),
        (execute_one_instruction c (instruction_byte k r z 0x0C)).map
            (fun pr => pr.2.program_counter)
          = some (jump_to_dynamic_address c.program_counter
              ((target_stack c (decoded_stack_flag r)).read_item_at (decoded_size_flag z)
                (back (target_stack c (decoded_stack_flag r)).pointer
                  (size_bytes (decoded_size_flag z))))))
    ∧ (∀ (k r z : Bool) (c : Core),
        (execute_one_instruction c (instruction_byte k r z 0x0D)).map
            (fun pr => pr.2.program_counter)
          = some (
              if (target_stack c (decoded_stack_flag r)).read_byte_at
                    (back (back (target_stack c (decoded_stack_flag r)).pointer
                      (size_bytes (decoded_size_flag z))) 1) ≠ 0 then
                jump_to_dynamic_address c.program_counter
                  ((target_stack c (decoded_stack_flag r)).read_item_at (decoded_size_flag z)
                    (back (target_stack c (decoded_stack_flag r)).pointer
                      (size_bytes (decoded_size_flag z))))
              else c.program_counter))
    ∧ (∀ (k r z : Bool) (c : Core),
        (execute_one_instruction c (instruction_byte k r z 0x0E)).map
            (fun pr => pr.2.program_counter)
          = some (jump_to_dynamic_address c.program_counter
              ((target_stack c (decoded_stack_flag r)).read_item_at (decoded_size_flag z)
                (back (target_stack c (decoded_stack_flag r)).pointer
                  (size_bytes (decoded_size_flag z)))))) := by
  refine ⟨?_, fun pc a => rfl, ?_, ?_, ?_⟩
  · intro pc rel
    by_cases h : rel % 256 < 128
    · have h1 : ((rel % 256 : Nat) : Int) % 65536 = ((rel % 256 : Nat) : Int) := by omega
      simp only [jump_to_dynamic_address, signExtend8to16, ofI16, toI8, if_pos h, h1,
        Int.toNat_natCast]
      omega
    · have h1 : (((rel % 256 : Nat) : Int) - 256) % 65536 = ((rel % 256 : Nat) : Int) + 65280 := by
        omega
      simp only [jump_to_dynamic_address, signExtend8to16, ofI16, toI8, if_neg h, h1]
      omega
  · intro k r z c
    cases k <;> cases r <;> cases z <;> rfl
  · intro k r z c
    cases k <;> cases r <;> cases z <;> rfl
  · intro k r z c
    cases k <;> cases r <;> cases z <;> rfl

theorem read_bytesize_lt (size : ItemSize) (r : OperandRead) : read_bytesize size r < 256 := by
  cases r <;> cases size <;> decide

theorem run_reads_as_int (size : ItemSize) (reads : List OperandRead) :
    ∀ q, q < 256 →
      ((run_reads size q reads : Nat) : Int) = (((q : Nat) : Int) - total_bytes size reads) % 256 := by
  induction reads with
  | nil => intro q hq; simp only [run_reads, total_bytes]; omega
  | cons r rest ih =>
    intro q hq
    have hk : read_bytesize size r < 256 := read_bytesize_lt size r
    have hq' : back q (read_bytesize size r) < 256 := by
      simp only [back]; omega
    simp only [run_reads, total_bytes]
    rw [ih _ hq']
    simp only [back]
    omega

/-- C6: after any sequence of operand reads through the accessor in Pop
mode, committing with `done` sets the stack pointer to the initial pointer
minus the total byte size of the operands read (1 per byte, 2 per short,
the size flag's width per item), all mod 256, with no underflow error (the
accessor is total and simply wraps). -/
theorem C6_pop_commit (s : Stack) (size : ItemSize) (reads : List OperandRead)
    (h : s.pointer < 256) :
    (((done s AccessMode.Pop (run_reads size s.pointer reads)).pointer : Nat) : Int)
      = ((s.pointer : Int) - total_bytes size reads) % 256 := by
  simpa only [done] using run_reads_as_int size reads s.pointer h

/-- Witness for C6 at a concrete stack and read sequence. -/
theorem C6_pop_commit_witness :
    Stack.new.pointer < 256
    ∧ (((done Stack.new AccessMode.Pop
          (run_reads ItemSize.Short Stack.new.pointer
            [OperandRead.byte, OperandRead.item])).pointer : Nat) : Int)
        = ((Stack.new.pointer : Int)
            - total_bytes ItemSize.Short [OperandRead.byte, OperandRead.item]) % 256 :=
  ⟨by decide, C6_pop_commit Stack.new ItemSize.Short [OperandRead.byte, OperandRead.item]
    (by decide)⟩

theorem store_rom_spec (rom : List Nat) :
    ∀ (m : Nat → Nat) (base key : Nat),
      store_rom m base rom key =
        if base ≤ key ∧ key < base + rom.length then rom.getD (key - base) 0 % 256
        else m key := by
  induction rom with
  | nil =>
    intro m base key
    simp only [store_rom, List.length_nil]
    rw [if_neg (by omega)]
  | cons b rest ih =>
    intro m base key
    simp only [store_rom, List.length_cons]
    rw [ih]
    by_cases h1 : base + 1 ≤ key ∧ key < base + 1 + rest.length
    · rw [if_pos h1, if_pos (by omega)]
      have hk : key - base = (key - (base + 1)) + 1 := by omega
      rw [hk]
      simp only [List.getD_cons_succ]
    · rw [if_neg h1]
      by_cases h2 : key = base
      · subst h2
        rw [if_pos rfl, if_pos (by omega)]
        simp only [Nat.sub_self, List.getD_cons_zero]
      · rw [if_neg h2, if_neg (by omega)]

/-- C8: for every ROM of length at most 0xFF00 whose entries are bytes,
after `load_rom` the byte at `0x0100 + i` equals the ROM's `i`-th byte for
every `i < len`, and every byte outside `[0x0100, 0x0100 + len)` is 0. -/
theorem C8_load_rom (m : Nat → Nat) (rom : List Nat)
    (hlen : rom.length ≤ 0xFF00) (hbytes : ∀ b ∈ rom, b < 256) :
    (∀ i, i < rom.length → load_rom m rom (ROM_BASE + i) = rom.getD i 0)
    ∧ (∀ a, a < ROM_BASE ∨ ROM_BASE + rom.length ≤ a → load_rom m rom a = 0) := by
  constructor
  · intro i hi
    rw [load_rom, store_rom_spec, if_pos (by simp only [ROM_BASE]; omega)]
    have hmem : rom.getD (ROM_BASE + i - ROM_BASE) 0 ∈ rom := by
      have h0 : ROM_BASE + i - ROM_BASE = i := by omega
      rw [h0, List.getD_eq_getElem rom 0 hi]
      exact List.getElem_mem hi
    have h0 : ROM_BASE + i - ROM_BASE = i := by omega
    rw [h0] at hmem ⊢
    exact Nat.mod_eq_of_lt (hbytes _ hmem)
  · intro a ha
    rw [load_rom, store_rom_spec, if_neg (by simp only [ROM_BASE] at ha ⊢; omega)]
    rfl

/-- Witness for C8 on a concrete two-byte ROM. -/
theorem C8_load_rom_witness :
    ([0x17, 0x42] : List Nat).length ≤ 0xFF00
    ∧ (∀ b ∈ ([0x17, 0x42] : List Nat), b < 256)
    ∧ ((∀ i, i < ([0x17, 0x42] : List Nat).length →
          load_rom (fun _ => 7) [0x17, 0x42] (ROM_BASE + i) = ([0x17, 0x42] : List Nat).getD i 0)
        ∧ (∀ a, a < ROM_BASE ∨ ROM_BASE + ([0x17, 0x42] : List Nat).length ≤ a →
            load_rom (fun _ => 7) [0x17, 0x42] a = 0)) :=
  ⟨by decide, by decide, C8_load_rom (fun _ => 7) [0x17, 0x42] (by decide) (by decide)⟩

/-- C9: every one of the 256 instruction bytes has defined semantics on
every CPU state: the opcode dispatch covers all 32 opcodes (the source's
final `unreachable!` arm, modelled as `none`, is never taken) and the
mismatched-variant `unreachable!` inside every binary `Item` operator is
never reached, because the decoder constructs all operands of one
instruction with the instruction's single size flag. -/
theorem C9_execute_total (c : Core) (ins : Nat) (h : ins < 256) :
    (execute_one_instruction c ins).isSome = true := by
  interval_cases ins <;> rfl

/-- Witness for C9 at a concrete instruction byte (DIV). -/
theorem C9_execute_total_witness :
    (0x1B : Nat) < 256 ∧ (execute_one_instruction Core.new 0x1B).isSome = true :=
  ⟨by decide, C9_execute_total Core.new 0x1B (by decide)⟩

set_option maxHeartbeats 4000000 in
/-- C3 (amended): executing an instruction whose keep flag is set changes
the target stack only by pushing result bytes onto it — the operand reads
and the `done` commit never move the stack pointer, which advances exactly
by the pushes the handler performs (and is unchanged only for handlers
that push nothing to the target stack, such as POPk). -/
theorem C3_keep_only_pushes (c : Core) (ins : Nat) (hlt : ins < 256)
    (h7 : ins.testBit 7 = true) :
    ∃ (res : ExecutionResult) (c' : Core),
      execute_one_instruction c ins = some (res, c')
      ∧ PushExt
          (target_stack c (if ins.testBit 6 then StackMode.Return else StackMode.Working))
          (target_stack c' (if ins.testBit 6 then StackMode.Return else StackMode.Working)) := by
  interval_cases ins <;>
    first
      | exact absurd h7 (by decide)
      | (refine ⟨_, _, rfl, ?_⟩
         first
           | exact PushExt.refl
           | exact PushExt.push _ PushExt.refl
           | exact PushExt.push _ (PushExt.push _ PushExt.refl)
           | exact PushExt.push _ (PushExt.push _ (PushExt.push _ PushExt.refl))
           | exact PushExt.push _ (PushExt.push _ (PushExt.push _ (PushExt.push _ PushExt.refl)))
           | exact PushExt.push _ (PushExt.push _ (PushExt.push _ (PushExt.push _
               (PushExt.push _ PushExt.refl))))
           | exact PushExt.push _ (PushExt.push _ (PushExt.push _ (PushExt.push _
               (PushExt.push _ (PushExt.push _ PushExt.refl))))))

/-- Witness for the amended C3 at LIT (0x80) on the reset core. -/
theorem C3_keep_only_pushes_witness :
    (0x80 : Nat) < 256 ∧ (0x80 : Nat).testBit 7 = true
    ∧ ∃ (res : ExecutionResult) (c' : Core),
        execute_one_instruction Core.new 0x80 = some (res, c')
        ∧ PushExt
            (target_stack Core.new
              (if (0x80 : Nat).testBit 6 then StackMode.Return else StackMode.Working))
            (target_stack c'
              (if (0x80 : Nat).testBit 6 then StackMode.Return else StackMode.Working)) :=
  ⟨by decide, by decide, C3_keep_only_pushes Core.new 0x80 (by decide) (by decide)⟩

end Uxn
